import Mathlib

/-!
Verification development for the McpHub repository (mcp-on-demand), a lazy
multiplexing proxy for the Model Context Protocol.  The definitions below are
a shallow embedding of the TypeScript sources:

* schema-cache.ts   (SchemaCache: cache file, routing table, prefixing)
* child-manager.ts  (ChildManager: lazy spawn, coalescing, idle reaping)
* proxy-server.ts   (ProxyServer: tools/list and tools/call dispatch,
                     tool-search meta-tools)

JavaScript Records iterated with Object.entries preserve insertion order for
string keys, so they are modelled as association lists; Map is modelled the
same way.  JS run-to-completion scheduling means every synchronous code
segment between two awaits is one atomic step; the child manager is therefore
modelled as a state machine whose steps are those segments.
-/

namespace McpHub

/-- JSON values (tool input schemas are opaque JSON passed through unchanged;
numbers that appear in the modelled fragments are integral). -/
inductive Json where
  | null
  | bool (b : Bool)
  | num (n : Int)
  | str (s : String)
  | arr (elements : List Json)
  | obj (fields : List (String × Json))

/-! ## Schema cache data model (schema-cache.ts) -/

/-- ToolSchema from schema-cache.ts: name, optional description, opaque input schema. -/
structure ToolSchema where
  name : String
  description : Option String
  inputSchema : Json

/-- ServerSchemaCache from schema-cache.ts. -/
structure ServerSchemaCache where
  serverName : String
  tools : List ToolSchema
  cachedAt : String

/-- FullCache from schema-cache.ts; the servers Record is an insertion-ordered
association list. -/
structure FullCache where
  version : Nat
  generatedAt : String
  servers : List (String × ServerSchemaCache)

/-- One collision warning produced by SchemaCache.rebuildRouting.  The source
emits log.warn with the message
Tool name collision: "(tool)" in both "(keptServer)" and "(newServer)". Using first.
where keptServer is this.toolRouting.get(tool.name) at the time of the warning
and newServer is the server currently being processed. -/
structure CollisionWarning where
  tool : String
  keptServer : String
  newServer : String
deriving DecidableEq

/-- The in-memory routing table (Map from tool name to server name),
modelled as an insertion-ordered association list with unique keys. -/
abbrev Routing := List (String × String)

/-- One iteration of the inner loop of SchemaCache.rebuildRouting: if the tool
name is already routed, emit a collision warning and keep the first entry,
otherwise add the route. -/
def routingInsert (acc : Routing × List CollisionWarning) (serverName : String)
    (tool : ToolSchema) : Routing × List CollisionWarning :=
  match acc.1.lookup tool.name with
  | some kept => (acc.1, acc.2 ++ [⟨tool.name, kept, serverName⟩])
  | none => (acc.1 ++ [(tool.name, serverName)], acc.2)

/-- SchemaCache.rebuildRouting: clear the table, then iterate servers in
insertion order and their tools in declared order.  Returns the rebuilt
routing table together with the collision warnings logged along the way. -/
def rebuildRouting (cache : Option FullCache) : Routing × List CollisionWarning :=
  match cache with
  | none => ([], [])
  | some c =>
    c.servers.foldl
      (fun acc entry => entry.2.tools.foldl (fun a t => routingInsert a entry.1 t) acc)
      ([], [])

/-- SchemaCache.getServerForTool: lookup in the routing table. -/
def getServerForTool (cache : Option FullCache) (toolName : String) : Option String :=
  (rebuildRouting cache).1.lookup toolName

/-- SchemaCache.getAllTools: all cached tools; when prefixWithServer is true a
tool is exposed as serverName __ toolName, otherwise under its original name.
Duplicated names are emitted as-is (there is no deduplication in the source). -/
def getAllTools (cache : Option FullCache) (prefixWithServer : Bool) : List ToolSchema :=
  match cache with
  | none => []
  | some c =>
    c.servers.flatMap (fun entry =>
      entry.2.tools.map (fun tool =>
        { tool with
          name := if prefixWithServer then entry.1 ++ "__" ++ tool.name else tool.name }))

/-- First index at which the character list starts with two underscores. -/
def startsWithDunder (l : List Char) : Bool :=
  match l with
  | a :: b :: _ => a == '_' && b == '_'
  | _ => false

/-- Index of the first occurrence of the substring of two underscores
(JavaScript indexOf applied to the fixed pattern of two underscores). -/
def idxOfDunder : List Char → Option Nat
  | [] => none
  | c :: cs =>
    if startsWithDunder (c :: cs) then some 0
    else (idxOfDunder cs).map (fun i => i + 1)

/-- SchemaCache.getOriginalToolName: when prefixing is enabled, slice the
exposed name just past the FIRST occurrence of two underscores (the source
uses toolName.indexOf and toolName.slice(idx + 2)). -/
def getOriginalToolName (toolName : String) (prefixWithServer : Bool) : String :=
  if prefixWithServer = false then toolName
  else
    match idxOfDunder toolName.data with
    | some idx => String.mk (toolName.data.drop (idx + 2))
    | none => toolName

/-- The flattened list of tool declarations of a cache, in routing-iteration
order: one pair (serverName, tool) per declared tool. -/
def declPairs (cache : Option FullCache) : List (String × ToolSchema) :=
  match cache with
  | none => []
  | some c => c.servers.flatMap (fun entry => entry.2.tools.map (fun t => (entry.1, t)))

/-- The servers declaring a given tool name, in iteration order, one entry per
declaration. -/
def declServersOf (cache : Option FullCache) (toolName : String) : List String :=
  ((declPairs cache).filter (fun d => d.2.name == toolName)).map (fun d => d.1)

/-- Shorthand for the fold step of rebuildRouting over flattened declarations. -/
def routingStep (acc : Routing × List CollisionWarning) (d : String × ToolSchema) :
    Routing × List CollisionWarning :=
  routingInsert acc d.1 d.2

/-- A server name is safe for prefix stripping when it neither contains a
double underscore nor ends in a single underscore; equivalently, its
characters followed by one underscore contain no double underscore. -/
def dunderSafeServerName (s : String) : Bool :=
  !((idxOfDunder (s.data ++ ['_'])).isSome)

/-! ## Cache persistence (SchemaCache.save) -/

/-- File-system operations performed by the cache layer. -/
inductive FsOp where
  | mkdirRecursive (dir : String)
  | writeFile (path : String) (content : String)
  | rename (src : String) (dst : String)
deriving DecidableEq

/-- resolve(cacheDir, returns the schemas.json path inside the cache dir). -/
def cacheFilePath (cacheDir : String) : String := cacheDir ++ "/schemas.json"

/-- SchemaCache.save(): returns without any file operation when no cache is in
memory, otherwise performs mkdirSync(cacheDir, recursive) followed by ONE
direct writeFileSync of the serialized cache to the cache file.  The
serialize parameter stands for the external JSON.stringify(cache, null, 2). -/
def saveOps (serialize : FullCache → String) (cacheDir : String)
    (cache : Option FullCache) : List FsOp :=
  match cache with
  | none => []
  | some c =>
    [FsOp.mkdirRecursive cacheDir,
     FsOp.writeFile (cacheFilePath cacheDir) (serialize c)]

/-- Stated from the specification words, for comparison with saveOps: a save
is atomic when it writes the serialized cache to a sibling temporary file and
then renames that temporary file over the cache file.  This boolean checks the
necessary shape of such a trace: it contains a rename onto the cache file
whose source is a different path that some operation of the trace wrote. -/
def specAtomicTempRenameSave (ops : List FsOp) (cacheFile : String) : Bool :=
  ops.any (fun op =>
    match op with
    | FsOp.rename src dst =>
      dst == cacheFile && src != cacheFile &&
        ops.any (fun op2 =>
          match op2 with
          | FsOp.writeFile p _ => p == src
          | _ => false)
    | _ => false)

/-- Effect of one file operation on a store of file contents (association
list from path to content; the most recent binding wins). -/
def execFsOp (store : List (String × String)) (op : FsOp) :
    List (String × String) :=
  match op with
  | FsOp.mkdirRecursive _ => store
  | FsOp.writeFile p c => (p, c) :: store
  | FsOp.rename src dst =>
    match store.lookup src with
    | some c => (dst, c) :: store.filter (fun q => q.1 != src)
    | none => store

/-- Observable contents of the target file when the process may crash at any
point while executing a list of file operations: the crash can happen before
any remaining operation, or in the middle of a write to the target, leaving an
arbitrary prefix of the data being written. -/
inductive CrashObs (target : String) :
    List (String × String) → List FsOp → Option String → Prop
  | now (store : List (String × String)) (ops : List FsOp) :
      CrashObs target store ops (store.lookup target)
  | midWrite (store : List (String × String)) (rest : List FsOp)
      (c pfx : String) (h : pfx.data.isPrefixOf c.data = true) :
      CrashObs target store (FsOp.writeFile target c :: rest) (some pfx)
  | next (store : List (String × String)) (op : FsOp) (rest : List FsOp)
      (obs : Option String) (h : CrashObs target (execFsOp store op) rest obs) :
      CrashObs target store (op :: rest) obs

/-! ## Proxy layer (proxy-server.ts) -/

/-- A content item of a tool-call result (type is the literal text in all the
modelled paths). -/
structure ContentItem where
  type : String
  text : String
deriving DecidableEq

/-- An MCP tool-call result as returned by the proxy handlers.  The isError
field is an Option because the source sometimes omits it entirely. -/
structure ToolCallResult where
  content : List ContentItem
  isError : Option Bool
deriving DecidableEq

/-- childManager.callTool as observed by the proxy: either the upstream
result passed through unchanged, or a thrown error with its message.  A value
of the error constructor reaching the host unhandled would be a JSON-RPC
protocol-level fault. -/
abbrev UpstreamCall := String → String → Except String ToolCallResult

/-- ProxyServer.callDirectTool: resolve the owning server from the routing
table, strip the prefix, forward through the child manager inside try/catch.
Every branch yields a normal result; the only throwing operation is the
upstream call and it is caught. -/
def callDirectTool (cache : Option FullCache) (prefixTools : Bool)
    (upstream : UpstreamCall) (toolName : String) : Except String ToolCallResult :=
  match getServerForTool cache toolName with
  | none =>
    Except.ok { content := [⟨"text", "Unknown tool: " ++ toolName⟩], isError := some true }
  | some serverName =>
    let originalToolName := getOriginalToolName toolName prefixTools
    match upstream serverName originalToolName with
    | Except.ok result => Except.ok result
    | Except.error msg =>
      Except.ok { content := [⟨"text", "Error: " ++ msg⟩], isError := some true }

/-- The tools/call handler of the older proxy-server.ts, modelled verbatim,
including its no-op lookupName line (the source computes the same name in both
branches of the prefixTools conditional). -/
def proxyCallToolHandler (cache : Option FullCache) (prefixTools : Bool)
    (upstream : UpstreamCall) (toolName : String) : Except String ToolCallResult :=
  let lookupName := if prefixTools then toolName else toolName
  match getServerForTool cache lookupName with
  | none =>
    Except.ok { content := [⟨"text", "Error: Unknown tool \"" ++ toolName ++ "\""⟩],
                isError := some true }
  | some _serverName =>
    let originalToolName := getOriginalToolName toolName prefixTools
    match upstream _serverName originalToolName with
    | Except.ok result => Except.ok result
    | Except.error msg =>
      Except.ok { content := [⟨"text", "Error calling " ++ toolName ++ ": " ++ msg⟩],
                  isError := some true }

/-- One search hit from the tool-search engine (tool-search.ts is consumed
through this interface; its numeric scores are modelled integrally). -/
structure SearchResult where
  name : String
  server : String
  description : String
  inputSchema : Json
  score : Int

/-- The interface of ToolSearchEngine as consumed by ProxyServer: the catalog
and tool count interpolated into the meta-tool description, and the search
function. -/
structure ToolSearchEngineModel where
  catalog : String
  toolCount : Nat
  search : String → Int → List SearchResult

/-- A tool descriptor as returned by the tools/list handler. -/
structure ExposedTool where
  name : String
  description : String
  inputSchema : Json

/-- Input schema of the search_tools meta-tool, field for field from
ProxyServer.getMetaTools. -/
def searchToolsSchema : Json :=
  Json.obj
    [("type", Json.str "object"),
     ("properties", Json.obj
       [("query", Json.obj
         [("type", Json.str "string"),
          ("description",
           Json.str "Search query: tool name, keyword, server name, or capability")]),
        ("max_results", Json.obj
          [("type", Json.str "number"),
           ("description", Json.str "Maximum results (default: 10, max: 30)")])]),
     ("required", Json.arr [Json.str "query"])]

/-- Input schema of the use_tool meta-tool, field for field from
ProxyServer.getMetaTools. -/
def useToolSchema : Json :=
  Json.obj
    [("type", Json.str "object"),
     ("properties", Json.obj
       [("tool_name", Json.obj
         [("type", Json.str "string"),
          ("description", Json.str "Exact tool name from search_tools")]),
        ("arguments", Json.obj
          [("type", Json.str "object"),
           ("description", Json.str "Tool arguments matching the inputSchema"),
           ("additionalProperties", Json.bool true)])]),
     ("required", Json.arr [Json.str "tool_name", Json.str "arguments"])]

/-- ProxyServer.getMetaTools: the two meta-tool descriptors exposed in
tool-search mode, named search_tools and use_tool in the source. -/
def getMetaTools (engine : ToolSearchEngineModel) (serverCount : Nat) : List ExposedTool :=
  [{ name := "search_tools",
     description :=
       "Search across " ++ toString engine.toolCount ++ " available tools from " ++
       toString serverCount ++ " MCP servers. " ++
       "Returns matching tools with their full schemas so you can call them via use_tool.\n\n" ++
       "Available servers and capabilities:\n" ++ engine.catalog,
     inputSchema := searchToolsSchema },
   { name := "use_tool",
     description :=
       "Call a tool discovered via search_tools. Pass the exact tool name and its arguments.",
     inputSchema := useToolSchema }]

/-- Operating mode of the proxy. -/
inductive Mode where
  | passthrough
  | toolSearch
deriving DecidableEq

/-- The tools/list request handler of ProxyServer.registerHandlers: in
tool-search mode with an initialized engine it returns the meta-tools, in
every other case all cached tools (with descriptions defaulted to the empty
string). -/
def listToolsHandler (mode : Mode) (engine : Option ToolSearchEngineModel)
    (serverCount : Nat) (cache : Option FullCache) (prefixTools : Bool) :
    List ExposedTool :=
  match mode, engine with
  | Mode.toolSearch, some e => getMetaTools e serverCount
  | _, _ =>
    (getAllTools cache prefixTools).map (fun t =>
      { name := t.name, description := t.description.getD "", inputSchema := t.inputSchema })

/-- JavaScript String.prototype.trim: whitespace removed from both ends of
the character list. -/
def jsTrim (s : String) : String :=
  String.mk (((s.data.dropWhile Char.isWhitespace).reverse.dropWhile
    Char.isWhitespace).reverse)

/-- The effective maximum result count computed by
ProxyServer.handleSearchTools.  The source computes
Math.min(Number(args.max_results) or-else 10, 30): an absent value (NaN after
coercion) and the falsy 0 default to 10; the result is capped above at 30 and
is NOT clamped from below. -/
def effectiveMaxResults (max_results : Option Int) : Int :=
  min
    (match max_results with
     | none => (10 : Int)
     | some v => if v = 0 then (10 : Int) else v)
    30

/-- ProxyServer.handleSearchTools.  The render parameter stands for the
external JSON.stringify of the formatted results object; an empty or
whitespace-only query returns the guidance message without any isError flag. -/
def handleSearchTools (engine : ToolSearchEngineModel)
    (render : String → List SearchResult → String)
    (query : Option String) (max_results : Option Int) : ToolCallResult :=
  let q := query.getD ""
  let maxResults := effectiveMaxResults max_results
  if jsTrim q = "" then
    { content := [⟨"text", "Provide a search query."⟩], isError := none }
  else
    let results := engine.search q maxResults
    if results.isEmpty then
      { content := [⟨"text", "No tools found matching \"" ++ q ++ "\"."⟩], isError := none }
    else
      { content := [⟨"text", render q results⟩], isError := none }

/-! ## Concrete fixtures used by counterexamples and witnesses -/

/-- A tool schema with just a name (description absent, opaque empty schema). -/
def mkTool (nm : String) : ToolSchema :=
  { name := nm, description := none, inputSchema := Json.null }

/-- Two servers that both declare a tool named list, server A first. -/
def c3CacheAB : FullCache :=
  { version := 1, generatedAt := "t0",
    servers :=
      [("A", { serverName := "A", tools := [mkTool "list", mkTool "alpha_only"],
               cachedAt := "t1" }),
       ("B", { serverName := "B", tools := [mkTool "list"], cachedAt := "t2" })] }

/-- A cache with a plain server name and one containing a double underscore. -/
def c4Cache : FullCache :=
  { version := 1, generatedAt := "t0",
    servers :=
      [("alpha", { serverName := "alpha", tools := [mkTool "ping"], cachedAt := "t1" }),
       ("a__b", { serverName := "a__b", tools := [mkTool "x"], cachedAt := "t2" })] }

/-- A one-server cache for the forwarding-error fixtures. -/
def c7Cache : FullCache :=
  { version := 1, generatedAt := "g",
    servers := [("srv", { serverName := "srv", tools := [mkTool "tool1"], cachedAt := "c" })] }

/-- An upstream that always throws. -/
def c7Upstream : UpstreamCall := fun _ _ => Except.error "boom"

/-- A concrete serializer standing in for JSON.stringify in the save
counterexample. -/
def c5Serialize : FullCache → String := fun _ => "NEWCACHE"

/-- A concrete cache for the save counterexample. -/
def c5Cache : FullCache := { version := 1, generatedAt := "g", servers := [] }

/-- The operations save() performs for the c5 fixture. -/
def c5Ops : List FsOp := saveOps c5Serialize "cachedir" (some c5Cache)

/-- A concrete engine fixture for the meta-tool and search theorems. -/
def c8Engine : ToolSearchEngineModel :=
  { catalog := "servers", toolCount := 3, search := fun _ _ => [] }

/-- A concrete render function fixture. -/
def c9Render : String → List SearchResult → String := fun q _ => q

/-! ## Child manager (child-manager.ts)

The proxy process is single-threaded with run-to-completion scheduling: every
synchronous segment between two awaits runs atomically.  The child manager is
modelled as a state machine whose steps are exactly those segments.  Promises
are modelled by identifiers resolved in a promise table, and spawned child
processes are recorded explicitly so that claims about process counts and
termination can be stated. -/

/-- The status field of a ManagedServer. -/
inductive ServerStatus where
  | stopped
  | starting
  | running
  | error
deriving DecidableEq, Repr

/-- ServerConfig from config.ts as consumed by the child manager. -/
structure ServerConfig where
  command : String
  args : List String
  env : List (String × String)
  idleTimeout : Option Nat
  persistent : Bool
deriving DecidableEq, Repr

/-- ManagedServer from child-manager.ts.  The idleTimer field records the
armed one-shot duration in milliseconds (none when no timer is armed); the
transport field holds the identifier of the spawned child process. -/
structure ManagedServer where
  name : String
  config : ServerConfig
  client : Option Nat
  transport : Option Nat
  status : ServerStatus
  lastActivity : Nat
  idleTimer : Option Nat
  startPromise : Option Nat
deriving DecidableEq, Repr

/-- State of a start promise: pending (recording the server, the client and
child created by the in-flight startServer, and the deadline of the startup
timer), resolved with a client, or rejected with an error message. -/
inductive PromiseState where
  | pending (server : String) (clientId : Nat) (childId : Nat) (deadline : Nat)
  | resolvedClient (clientId : Nat)
  | rejected (message : String)
deriving DecidableEq, Repr

/-- A spawned child process. -/
structure ChildProcess where
  id : Nat
  server : String
  command : String
  args : List String
  env : List (String × String)
  alive : Bool
deriving DecidableEq, Repr

/-- The whole child-manager state: the managed servers (insertion-ordered
map), the promise table, the spawned children, a fresh-id counter, the clock,
the inherited process environment and the two constructor-injected timeouts. -/
structure CMState where
  servers : List (String × ManagedServer)
  promises : List (Nat × PromiseState)
  children : List ChildProcess
  nextId : Nat
  now : Nat
  baseEnv : List (String × String)
  defaultIdleTimeout : Nat
  startupTimeout : Nat
deriving DecidableEq, Repr

/-- Update the value stored at a key of an association list, keeping every
other entry (mutation of the record object held in the Map). -/
def alUpdate {κ α : Type} [BEq κ] (l : List (κ × α)) (key : κ) (v : α) :
    List (κ × α) :=
  l.map (fun p => if p.1 == key then (key, v) else p)

/-- The spread of process.env with the per-server env entries winning. -/
def mergeEnv (base upd : List (String × String)) : List (String × String) :=
  base.filter (fun p => !(upd.any (fun q => q.1 == p.1))) ++ upd

/-- The ManagedServer record created by the ChildManager constructor. -/
def initialServer (name : String) (config : ServerConfig) : ManagedServer :=
  { name := name, config := config, client := none, transport := none,
    status := ServerStatus.stopped, lastActivity := 0, idleTimer := none,
    startPromise := none }

/-- The ChildManager constructor: every configured server starts stopped with
no client, no timer and no start promise. -/
def mkChildManager (configs : List (String × ServerConfig))
    (defaultIdleTimeout : Nat) (startupTimeout : Nat)
    (baseEnv : List (String × String)) : CMState :=
  { servers := configs.map (fun p => (p.1, initialServer p.1 p.2)),
    promises := [], children := [], nextId := 0, now := 0,
    baseEnv := baseEnv, defaultIdleTimeout := defaultIdleTimeout,
    startupTimeout := startupTimeout }

/-- ChildManager.resetIdleTimer: persistent servers never arm the timer; for
the others the armed duration is the per-server idleTimeout if set, otherwise
the global default, converted to milliseconds. -/
def resetIdleTimer (defaultIdleTimeout : Nat) (srv : ManagedServer) :
    ManagedServer :=
  if srv.config.persistent then srv
  else { srv with idleTimer := some ((srv.config.idleTimeout.getD defaultIdleTimeout) * 1000) }

/-- The synchronous prefix of ChildManager.startServer together with the
startPromise assignment in getClient: mark the server starting, spawn the
child process (the StdioClientTransport with merged environment), create the
client, begin the connect racing against the startup timer, and record the
pending promise.  Returns the promise identifier and the new state. -/
def startServerSync (st : CMState) (serverName : String) (srv : ManagedServer) :
    Nat × CMState :=
  let childId := st.nextId
  let clientId := st.nextId + 1
  let promiseId := st.nextId + 2
  let child : ChildProcess :=
    { id := childId, server := serverName, command := srv.config.command,
      args := srv.config.args, env := mergeEnv st.baseEnv srv.config.env,
      alive := true }
  let srv2 := { srv with status := ServerStatus.starting,
                         startPromise := some promiseId }
  (promiseId,
   { st with
     servers := alUpdate st.servers serverName srv2,
     children := st.children ++ [child],
     promises := st.promises ++
       [(promiseId,
         PromiseState.pending serverName clientId childId (st.now + st.startupTimeout))],
     nextId := st.nextId + 3 })

/-- Result of the synchronous part of ChildManager.getClient. -/
inductive GetClientOutcome where
  | thrown (message : String)
  | clientReady (clientId : Nat)
  | awaiting (promiseId : Nat)
deriving DecidableEq, Repr

/-- ChildManager.getClient, one atomic segment: unknown server throws;
running with a client returns it after re-arming the idle timer; starting
with a pending promise returns that same promise; otherwise a new start is
begun and its promise returned. -/
def getClientStep (st : CMState) (serverName : String) :
    GetClientOutcome × CMState :=
  match st.servers.lookup serverName with
  | none => (GetClientOutcome.thrown ("Unknown server: " ++ serverName), st)
  | some srv =>
    match srv.status, srv.client, srv.startPromise with
    | ServerStatus.running, some cid, _ =>
      (GetClientOutcome.clientReady cid,
       { st with servers :=
           alUpdate st.servers serverName (resetIdleTimer st.defaultIdleTimeout srv) })
    | ServerStatus.starting, _, some p => (GetClientOutcome.awaiting p, st)
    | _, _, _ =>
      let r := startServerSync st serverName srv
      (GetClientOutcome.awaiting r.1, r.2)

/-- n sequential atomic getClient segments for the same server (how n
concurrent getClient callers interleave in a single-threaded runtime while
the child is starting). -/
def getClientN : CMState → String → Nat → List GetClientOutcome × CMState
  | st, _, 0 => ([], st)
  | st, serverName, Nat.succ n =>
    let r := getClientStep st serverName
    let rest := getClientN r.2 serverName n
    (r.1 :: rest.1, rest.2)

/-- The catch block of startServer: mark the server errored, clear the start
promise and reject the pending promise with the thrown message.  The spawned
child process is NOT touched (the source kills nothing here). -/
def rejectStartCore (st : CMState) (promiseId : Nat) (message : String) : CMState :=
  match st.promises.lookup promiseId with
  | some (PromiseState.pending serverName _ _ _) =>
    (match st.servers.lookup serverName with
     | some srv =>
       { st with
         promises := alUpdate st.promises promiseId (PromiseState.rejected message),
         servers := alUpdate st.servers serverName
           { srv with status := ServerStatus.error, startPromise := none } }
     | none => st)
  | _ => st

/-- The error message of the startup-timeout rejection. -/
def startupTimeoutMessage (startupTimeout : Nat) : String :=
  "Startup timeout (" ++ toString startupTimeout ++ "ms)"

/-- The startup timer firing: a no-op before the deadline or when the race
was already settled, otherwise the reject path of the Promise.race in
startServer with the startup-timeout message. -/
def timeoutStep (st : CMState) (promiseId : Nat) : CMState :=
  match st.promises.lookup promiseId with
  | some (PromiseState.pending _ _ _ deadline) =>
    if st.now < deadline then st
    else rejectStartCore st promiseId (startupTimeoutMessage st.startupTimeout)
  | _ => st

/-- client.connect failing before the timer fires: the same catch block with
the connection error message. -/
def connectFailStep (st : CMState) (promiseId : Nat) (message : String) : CMState :=
  match st.promises.lookup promiseId with
  | some (PromiseState.pending _ _ _ _) => rejectStartCore st promiseId message
  | _ => st

/-- client.connect winning the race: the continuation of startServer after
the await stores the client and transport, marks the server running, clears
the start promise, re-arms the idle timer and resolves the promise with the
client. -/
def resolveStep (st : CMState) (promiseId : Nat) : CMState :=
  match st.promises.lookup promiseId with
  | some (PromiseState.pending serverName clientId childId _) =>
    (match st.servers.lookup serverName with
     | some srv =>
       { st with
         promises := alUpdate st.promises promiseId
           (PromiseState.resolvedClient clientId),
         servers := alUpdate st.servers serverName
           (resetIdleTimer st.defaultIdleTimeout
             { srv with client := some clientId, transport := some childId,
                        status := ServerStatus.running, lastActivity := st.now,
                        startPromise := none }) }
     | none => st)
  | _ => st

/-- ChildManager.cleanupServer: clear the timer, drop the client and
transport references, mark the server stopped and clear the start promise. -/
def cleanupServer (srv : ManagedServer) : ManagedServer :=
  { srv with idleTimer := none, client := none, transport := none,
             status := ServerStatus.stopped, startPromise := none }

/-- Terminate the child process with the given identifier. -/
def killChild (children : List ChildProcess) (childId : Nat) : List ChildProcess :=
  children.map (fun c => if c.id == childId then { c with alive := false } else c)

/-- ChildManager.stopServer: a no-op for unknown or already stopped servers;
otherwise closing the client terminates the child (when a client exists), and
cleanupServer runs. -/
def stopServerStep (st : CMState) (serverName : String) : CMState :=
  match st.servers.lookup serverName with
  | none => st
  | some srv =>
    if srv.status = ServerStatus.stopped then st
    else
      let st2 :=
        match srv.client, srv.transport with
        | some _, some childId => { st with children := killChild st.children childId }
        | _, _ => st
      { st2 with servers := alUpdate st2.servers serverName (cleanupServer srv) }

/-- The transport onclose handler: the child is gone; while running, the
server is cleaned up (unexpected upstream close). -/
def transportCloseStep (st : CMState) (serverName : String) : CMState :=
  match st.servers.lookup serverName with
  | none => st
  | some srv =>
    match srv.transport with
    | some childId =>
      let st2 := { st with children := killChild st.children childId }
      if srv.status = ServerStatus.running then
        { st2 with servers := alUpdate st2.servers serverName (cleanupServer srv) }
      else st2
    | none => st

/-- The segment of ChildManager.callTool after getClient returned: update
lastActivity and re-arm the idle timer. -/
def callToolActivityStep (st : CMState) (serverName : String) : CMState :=
  match st.servers.lookup serverName with
  | some srv =>
    { st with servers :=
        (alUpdate st.servers serverName
          (resetIdleTimer st.defaultIdleTimeout { srv with lastActivity := st.now })) }
  | none => st

/-- Result of the synchronous prefix of callTool or discoverTools. -/
inductive CallOutcome where
  | thrown (message : String)
  | awaitingStart (promiseId : Nat)
  | forwarded (clientId : Nat) (tool : String)
deriving DecidableEq, Repr

/-- ChildManager.callTool, synchronous prefix: await getClient (propagating
its throw, or suspending on the start promise), then record activity and
forward to the upstream client. -/
def callToolStep (st : CMState) (serverName : String) (tool : String) :
    CallOutcome × CMState :=
  let r := getClientStep st serverName
  match r.1 with
  | GetClientOutcome.thrown m => (CallOutcome.thrown m, r.2)
  | GetClientOutcome.awaiting p => (CallOutcome.awaitingStart p, r.2)
  | GetClientOutcome.clientReady cid =>
    (CallOutcome.forwarded cid tool, callToolActivityStep r.2 serverName)

/-- ChildManager.discoverTools, synchronous prefix: await getClient and then
issue listTools on the client (no further manager-state change). -/
def discoverToolsStep (st : CMState) (serverName : String) :
    CallOutcome × CMState :=
  let r := getClientStep st serverName
  match r.1 with
  | GetClientOutcome.thrown m => (CallOutcome.thrown m, r.2)
  | GetClientOutcome.awaiting p => (CallOutcome.awaitingStart p, r.2)
  | GetClientOutcome.clientReady cid => (CallOutcome.forwarded cid "tools/list", r.2)

/-- An armed idle timer firing: stopServer for that server. -/
def idleFireStep (st : CMState) (serverName : String) : CMState :=
  match st.servers.lookup serverName with
  | some srv =>
    (match srv.idleTimer with
     | some _ => stopServerStep st serverName
     | none => st)
  | none => st

/-- Time passing. -/
def tickStep (st : CMState) (dt : Nat) : CMState := { st with now := st.now + dt }

/-- One atomic step of the child manager: any synchronous segment that the
event loop can run. -/
inductive CMStep : CMState → CMState → Prop where
  | getClient (st : CMState) (name : String) : CMStep st (getClientStep st name).2
  | callTool (st : CMState) (name tool : String) :
      CMStep st (callToolStep st name tool).2
  | discover (st : CMState) (name : String) : CMStep st (discoverToolsStep st name).2
  | callActivity (st : CMState) (name : String) :
      CMStep st (callToolActivityStep st name)
  | resolve (st : CMState) (pid : Nat) : CMStep st (resolveStep st pid)
  | startTimeout (st : CMState) (pid : Nat) : CMStep st (timeoutStep st pid)
  | connectFail (st : CMState) (pid : Nat) (msg : String) :
      CMStep st (connectFailStep st pid msg)
  | stop (st : CMState) (name : String) : CMStep st (stopServerStep st name)
  | unexpectedClose (st : CMState) (name : String) :
      CMStep st (transportCloseStep st name)
  | idleFire (st : CMState) (name : String) : CMStep st (idleFireStep st name)
  | tick (st : CMState) (dt : Nat) : CMStep st (tickStep st dt)

/-- Reachability of a child-manager state from an initial state. -/
def CMReachable (initSt st : CMState) : Prop := Relation.ReflTransGen CMStep initSt st

/-- Per-server invariant: a persistent server never has an armed idle timer. -/
def srvTimerOK (srv : ManagedServer) : Prop :=
  srv.config.persistent = true → srv.idleTimer = none

/-- All managed servers satisfy the persistent-no-timer invariant. -/
def serversOK (l : List (String × ManagedServer)) : Prop :=
  ∀ e ∈ l, srvTimerOK e.2

/-- All promise identifiers are below the fresh-id counter. -/
def promiseIdsBounded (st : CMState) : Prop :=
  ∀ q ∈ st.promises, q.1 < st.nextId

/-- Concrete one-server fixture used by the child-manager witnesses. -/
def c1Config : ServerConfig :=
  { command := "echo", args := [], env := [], idleTimeout := none, persistent := false }

/-- Initial child-manager state of the one-server fixture. -/
def c1Init : CMState := mkChildManager [("a", c1Config)] 300 30000 []

/-- A server whose child never completes the handshake (sleep 60) with a
500 millisecond startup timeout. -/
def c2Config : ServerConfig :=
  { command := "sleep", args := ["60"], env := [], idleTimeout := none, persistent := false }

/-- Initial state for the startup-timeout scenario. -/
def c2Init : CMState := mkChildManager [("sleepy", c2Config)] 300 500 []

/-- A persistent server fixture. -/
def c6Config : ServerConfig :=
  { command := "srvp", args := [], env := [], idleTimeout := some 7, persistent := true }

/-- Initial state with one persistent and one ordinary server. -/
def c6Init : CMState := mkChildManager [("p", c6Config), ("a", c1Config)] 300 30000 []

lemma foldl_flatMap {α β γ : Type} (g : α → List β) (f : γ → β → γ) (l : List α)
    (init : γ) :
    (l.flatMap g).foldl f init = l.foldl (fun acc x => (g x).foldl f acc) init := by
  induction l generalizing init with
  | nil => rfl
  | cons a l ih => simp [List.flatMap_cons, List.foldl_append, ih]

/-- The nested fold of rebuildRouting equals a single fold over the flattened
declaration list. -/
lemma rebuildRouting_eq_flat (cache : Option FullCache) :
    rebuildRouting cache = (declPairs cache).foldl routingStep ([], []) := by
  cases cache with
  | none => rfl
  | some c =>
    unfold rebuildRouting declPairs
    rw [foldl_flatMap]
    simp only [List.foldl_map]
    rfl

/-- Folding routingInsert never removes or changes an existing route. -/
lemma routingStep_lookup_mono (acc : Routing × List CollisionWarning)
    (d : String × ToolSchema) (t : String) (s1 : String)
    (h : acc.1.lookup t = some s1) : (routingStep acc d).1.lookup t = some s1 := by
  cases hl : acc.1.lookup d.2.name with
  | some kept =>
    have hstep : (routingStep acc d).1 = acc.1 := by
      unfold routingStep routingInsert; rw [hl]
    rw [hstep]; exact h
  | none =>
    have hstep : (routingStep acc d).1 = acc.1 ++ [(d.2.name, d.1)] := by
      unfold routingStep routingInsert; rw [hl]
    rw [hstep, List.lookup_append, h]; rfl

lemma foldl_routingStep_lookup_mono (ds : List (String × ToolSchema))
    (acc : Routing × List CollisionWarning) (t : String) (s1 : String)
    (h : acc.1.lookup t = some s1) :
    ((ds.foldl routingStep acc).1).lookup t = some s1 := by
  induction ds generalizing acc with
  | nil => exact h
  | cons d ds ih => exact ih _ (routingStep_lookup_mono acc d t s1 h)

/-- Folding routingInsert never drops warnings already emitted. -/
lemma foldl_routingStep_warn_mono (ds : List (String × ToolSchema))
    (acc : Routing × List CollisionWarning) (w : CollisionWarning)
    (h : w ∈ acc.2) : w ∈ (ds.foldl routingStep acc).2 := by
  induction ds generalizing acc with
  | nil => exact h
  | cons d ds ih =>
    refine ih _ ?_
    unfold routingStep routingInsert
    cases hl : acc.1.lookup d.2.name <;> simp [h]

/-- Lookup after folding the declaration list: the first route wins.  The
result is the route present in the accumulator if any, otherwise the first
declaring server among the folded declarations. -/
lemma foldl_routingStep_lookup (ds : List (String × ToolSchema))
    (acc : Routing × List CollisionWarning) (t : String) :
    ((ds.foldl routingStep acc).1).lookup t =
      (acc.1.lookup t).or (((ds.filter (fun d => d.2.name == t)).map (fun d => d.1)).head?) := by
  induction ds generalizing acc with
  | nil => simp
  | cons d ds ih =>
    rw [List.foldl_cons, ih]
    by_cases hname : d.2.name = t
    · subst hname
      cases hl : acc.1.lookup d.2.name with
      | some kept =>
        have hstep : (routingStep acc d).1 = acc.1 := by
          unfold routingStep routingInsert; rw [hl]
        simp [hstep, hl, List.filter_cons]
      | none =>
        have hstep : (routingStep acc d).1 = acc.1 ++ [(d.2.name, d.1)] := by
          unfold routingStep routingInsert; rw [hl]
        simp [hstep, List.lookup_append, hl, List.filter_cons]
    · have hbeq : (d.2.name == t) = false := beq_false_of_ne hname
      have hbeq2 : (t == d.2.name) = false := beq_false_of_ne (Ne.symm hname)
      have hlook : (routingStep acc d).1.lookup t = acc.1.lookup t := by
        cases hl : acc.1.lookup d.2.name with
        | some kept =>
          have hstep : (routingStep acc d).1 = acc.1 := by
            unfold routingStep routingInsert; rw [hl]
          rw [hstep]
        | none =>
          have hstep : (routingStep acc d).1 = acc.1 ++ [(d.2.name, d.1)] := by
            unfold routingStep routingInsert; rw [hl]
          rw [hstep, List.lookup_append]
          have hone : List.lookup t [(d.2.name, d.1)] = none := by
            simp [List.lookup, hbeq2]
          rw [hone, Option.or_none]
      rw [hlook]
      simp [List.filter_cons, hbeq]

/-- Routing resolves a tool to the first server declaring it, in iteration
order (SchemaCache.rebuildRouting keeps the first encountered declaration). -/
lemma getServerForTool_eq_head (cache : Option FullCache) (t : String) :
    getServerForTool cache t = (declServersOf cache t).head? := by
  unfold getServerForTool declServersOf
  rw [rebuildRouting_eq_flat, foldl_routingStep_lookup]
  simp [List.lookup]

/-- Every declaration of an already-routed tool name emits a collision warning
naming the kept server and the newly declaring server. -/
lemma foldl_routingStep_warns (ds : List (String × ToolSchema))
    (acc : Routing × List CollisionWarning) (t : String) (s1 : String)
    (h : acc.1.lookup t = some s1) :
    ∀ d ∈ ds, d.2.name = t →
      (⟨t, s1, d.1⟩ : CollisionWarning) ∈ (ds.foldl routingStep acc).2 := by
  induction ds generalizing acc with
  | nil => intro d hd; exact absurd hd (List.not_mem_nil d)
  | cons d0 ds ih =>
    intro d hd hname
    rcases List.mem_cons.mp hd with rfl | hmem
    · -- the head declaration collides right now
      subst hname
      refine foldl_routingStep_warn_mono ds _ _ ?_
      unfold routingStep routingInsert
      rw [h]
      simp
    · exact ih _ (routingStep_lookup_mono acc d0 t s1 h) d hmem hname

/-- If a tool name has at least one declaration, the routing table maps it to
the first declaring server and every later declaration produced a warning
naming the first server and the later one. -/
lemma rebuildRouting_collisions (cache : Option FullCache) (t s1 : String)
    (rest : List String) (h : declServersOf cache t = s1 :: rest) :
    getServerForTool cache t = some s1 ∧
      ∀ s ∈ rest, (⟨t, s1, s⟩ : CollisionWarning) ∈ (rebuildRouting cache).2 := by
  constructor
  · rw [getServerForTool_eq_head, h]; rfl
  · intro s hs
    unfold declServersOf at h
    rcases List.map_eq_cons_iff.mp h with ⟨d0, ds2, hfilter, hd0, hmap⟩
    rcases List.filter_eq_cons_iff.mp hfilter with ⟨ds1, ds3, hsplit, hpre, hp0, hfilter3⟩
    -- locate the declaration of s among the later ones
    have hs2 : s ∈ (ds3.filter (fun d => d.2.name == t)).map (fun d => d.1) := by
      rw [hfilter3, hmap]; exact hs
    rcases List.mem_map.mp hs2 with ⟨d, hdmem, hd1⟩
    have hdmem3 : d ∈ ds3 := (List.mem_filter.mp hdmem).1
    have hdname : d.2.name = t := by
      have := (List.mem_filter.mp hdmem).2
      exact eq_of_beq this
    -- run the fold up to and including the first declaration
    rw [rebuildRouting_eq_flat, hsplit, List.foldl_append, List.foldl_cons]
    set accA := ds1.foldl routingStep (([], []) : Routing × List CollisionWarning) with hA
    have hnone : accA.1.lookup t = none := by
      rw [hA, foldl_routingStep_lookup]
      have : ds1.filter (fun d => d.2.name == t) = [] := by
        refine List.filter_eq_nil_iff.mpr ?_
        intro x hx
        exact hpre x hx
      simp [this, List.lookup]
    have hsome : (routingStep accA d0).1.lookup t = some s1 := by
      have hnone0 : accA.1.lookup d0.2.name = none := by
        rw [eq_of_beq hp0]; exact hnone
      have hstep : (routingStep accA d0).1 = accA.1 ++ [(d0.2.name, d0.1)] := by
        unfold routingStep routingInsert; rw [hnone0]
      have ht : (t == d0.2.name) = true := by
        rw [eq_of_beq hp0]; exact beq_self_eq_true t
      rw [hstep, List.lookup_append, hnone, Option.none_or]
      simp [List.lookup, ht, hd0]
    have := foldl_routingStep_warns ds3 (routingStep accA d0) t s1 hsome d hdmem3 hdname
    rw [hd1] at this
    exact this

/-- Without prefixing, getAllTools is exactly the flattened declaration list:
every declaration contributes one entry under its original name. -/
lemma getAllTools_false_eq (cache : Option FullCache) :
    getAllTools cache false = (declPairs cache).map (fun d => d.2) := by
  cases cache with
  | none => rfl
  | some c =>
    simp only [getAllTools, declPairs, List.map_flatMap, List.map_map]
    refine congrArg _ (funext fun entry => ?_)
    refine congrArg (fun f => List.map f entry.2.tools) (funext fun tool => ?_)
    cases tool
    simp

/-- Without prefixing, the number of entries of a given name in getAllTools
equals the number of servers declaring that name: colliding declarations are
all exposed, nothing is deduplicated. -/
lemma getAllTools_false_count (cache : Option FullCache) (t : String) :
    ((getAllTools cache false).filter (fun x => x.name == t)).length =
      (declServersOf cache t).length := by
  rw [getAllTools_false_eq]
  unfold declServersOf
  rw [List.filter_map, List.length_map, List.length_map]
  rfl

lemma idxOfDunder_cons (c : Char) (cs : List Char) :
    idxOfDunder (c :: cs) =
      if startsWithDunder (c :: cs) then some 0
      else (idxOfDunder cs).map (fun i => i + 1) := rfl

/-- If a character list followed by one underscore contains no double
underscore (that is, the list neither contains a double underscore nor ends in
an underscore), then appending a double underscore puts its first occurrence
exactly at the end of the list. -/
lemma idxOfDunder_append_dunder (s rest : List Char)
    (h : (idxOfDunder (s ++ ['_'])).isSome = false) :
    idxOfDunder (s ++ '_' :: '_' :: rest) = some s.length := by
  induction s with
  | nil => simp [idxOfDunder, startsWithDunder]
  | cons c cs ih =>
    have hsw : startsWithDunder (c :: (cs ++ '_' :: '_' :: rest)) = false := by
      cases cs with
      | nil =>
        by_cases hc : c = '_'
        · exfalso
          subst hc
          simp [idxOfDunder, startsWithDunder] at h
        · simp [startsWithDunder, hc]
      | cons c2 cs2 =>
        by_cases hc : c = '_'
        · by_cases hc2 : c2 = '_'
          · exfalso
            subst hc; subst hc2
            simp [idxOfDunder, startsWithDunder] at h
          · simp [startsWithDunder, hc2]
        · simp [startsWithDunder, hc]
    have hrec : (idxOfDunder (cs ++ ['_'])).isSome = false := by
      rw [List.cons_append, idxOfDunder_cons] at h
      cases hb : startsWithDunder (c :: (cs ++ ['_'])) with
      | true => rw [hb] at h; simp at h
      | false => rw [hb] at h; simpa using h
    rw [List.cons_append, idxOfDunder_cons, hsw]
    simp [ih hrec]

/-- For a dunder-safe server name, stripping the prefix from the exposed name
recovers the original tool name. -/
lemma getOriginalToolName_roundtrip (s t : String)
    (h : dunderSafeServerName s = true) :
    getOriginalToolName (s ++ "__" ++ t) true = t := by
  obtain ⟨td⟩ := t
  have hfree : (idxOfDunder (s.data ++ ['_'])).isSome = false := by
    unfold dunderSafeServerName at h
    cases hx : (idxOfDunder (s.data ++ ['_'])).isSome with
    | true => rw [hx] at h; simp at h
    | false => rfl
  have hd2 : ("__" : String).data = ['_', '_'] := rfl
  have hdata : (s ++ "__" ++ String.mk td).data = s.data ++ '_' :: '_' :: td := by
    simp [String.data_append, hd2]
  unfold getOriginalToolName
  rw [hdata]
  have hidx := idxOfDunder_append_dunder s.data td hfree
  rw [hidx]
  have hregroup : s.data ++ '_' :: '_' :: td = (s.data ++ ['_', '_']) ++ td := by simp
  have hlen : (s.data ++ ['_', '_']).length = s.data.length + 2 := by simp
  simp only [hregroup]
  rw [← hlen, List.drop_left]
  simp

/-! ## Association-list lemmas for the child-manager proofs -/

lemma mem_of_lookup {κ α : Type} [BEq κ] [LawfulBEq κ] (l : List (κ × α)) (k : κ)
    (v : α) (h : l.lookup k = some v) : (k, v) ∈ l := by
  induction l with
  | nil => simp [List.lookup] at h
  | cons p ps ih =>
    obtain ⟨pk, pv⟩ := p
    rw [List.lookup_cons] at h
    cases hk : k == pk with
    | true =>
      rw [hk] at h
      simp only [Option.some.injEq] at h
      have hkeq : k = pk := eq_of_beq hk
      subst hkeq
      subst h
      exact List.mem_cons_self _ _
    | false =>
      rw [hk] at h
      exact List.mem_cons_of_mem _ (ih h)

lemma lookup_alUpdate_self {κ α : Type} [BEq κ] [LawfulBEq κ] (l : List (κ × α))
    (k : κ) (v w : α) (h : l.lookup k = some w) :
    (alUpdate l k v).lookup k = some v := by
  induction l with
  | nil => simp [List.lookup] at h
  | cons p ps ih =>
    obtain ⟨pk, pv⟩ := p
    rw [List.lookup_cons] at h
    unfold alUpdate
    rw [List.map_cons]
    cases hk : k == pk with
    | true =>
      have hkeq : k = pk := eq_of_beq hk
      subst hkeq
      simp [List.lookup_cons]
    | false =>
      rw [hk] at h
      have hpk : (pk == k) = false := by
        cases hpk2 : pk == k with
        | true =>
          have : pk = k := eq_of_beq hpk2
          subst this
          rw [beq_self_eq_true] at hk
          exact absurd hk (by simp)
        | false => rfl
      have hif : (if (pk == k) = true then (k, v) else (pk, pv)) = (pk, pv) := by
        rw [hpk]
        simp
      rw [hif, List.lookup_cons, hk]
      exact ih h

lemma mem_alUpdate {κ α : Type} [BEq κ] (l : List (κ × α)) (k : κ) (v : α)
    (q : κ × α) (h : q ∈ alUpdate l k v) : q ∈ l ∨ q = (k, v) := by
  unfold alUpdate at h
  rcases List.mem_map.mp h with ⟨p, hp, he⟩
  by_cases hc : (p.1 == k) = true
  · rw [if_pos hc] at he
    right
    exact he.symm
  · rw [if_neg hc] at he
    left
    rw [← he]
    exact hp

lemma lookup_none_of_ge (l : List (Nat × PromiseState)) (n k : Nat)
    (hb : ∀ q ∈ l, q.1 < n) (hk : n ≤ k) : l.lookup k = none := by
  induction l with
  | nil => rfl
  | cons q qs ih =>
    obtain ⟨qk, qv⟩ := q
    rw [List.lookup_cons]
    have hlt : qk < n := hb (qk, qv) (List.mem_cons_self _ _)
    have hne : (k == qk) = false := by
      apply beq_false_of_ne
      omega
    rw [hne]
    exact ih (fun q hq => hb q (List.mem_cons_of_mem _ hq))

/-! ## Preservation of the persistent-no-timer invariant -/

lemma srvTimerOK_reset (d : Nat) (srv : ManagedServer) (h : srvTimerOK srv) :
    srvTimerOK (resetIdleTimer d srv) := by
  unfold resetIdleTimer
  by_cases hp : srv.config.persistent = true
  · rw [if_pos hp]
    exact h
  · rw [if_neg hp]
    intro hpe
    exact absurd hpe hp

lemma serversOK_alUpdate (l : List (String × ManagedServer)) (k : String)
    (srv : ManagedServer) (h : serversOK l) (h2 : srvTimerOK srv) :
    serversOK (alUpdate l k srv) := by
  intro e he
  rcases mem_alUpdate l k srv e he with hin | heq
  · exact h e hin
  · rw [heq]
    exact h2

lemma serversOK_getClientStep (st : CMState) (name : String)
    (h : serversOK st.servers) : serversOK (getClientStep st name).2.servers := by
  unfold getClientStep
  cases hlk : st.servers.lookup name with
  | none => exact h
  | some srv =>
    have hsrv : srvTimerOK srv := h _ (mem_of_lookup _ _ _ hlk)
    obtain ⟨nm, cfg, cl, tr, stt, la, it, sp⟩ := srv
    cases stt <;> cases cl <;> cases sp <;>
      first
        | exact h
        | exact serversOK_alUpdate _ _ _ h (srvTimerOK_reset _ _ hsrv)
        | exact serversOK_alUpdate _ _ _ h (fun hp => hsrv hp)

lemma serversOK_callToolActivityStep (st : CMState) (name : String)
    (h : serversOK st.servers) : serversOK (callToolActivityStep st name).servers := by
  unfold callToolActivityStep
  cases hlk : st.servers.lookup name with
  | none => exact h
  | some srv =>
    have hsrv : srvTimerOK srv := h _ (mem_of_lookup _ _ _ hlk)
    exact serversOK_alUpdate _ _ _ h (srvTimerOK_reset _ _ (fun hp => hsrv hp))

lemma serversOK_rejectStartCore (st : CMState) (pid : Nat) (msg : String)
    (h : serversOK st.servers) : serversOK (rejectStartCore st pid msg).servers := by
  unfold rejectStartCore
  cases hp : st.promises.lookup pid with
  | none => exact h
  | some ps =>
    cases ps with
    | pending srvName cid chid dl =>
      dsimp only
      cases hlk : st.servers.lookup srvName with
      | none => exact h
      | some srv =>
        have hsrv : srvTimerOK srv := h _ (mem_of_lookup _ _ _ hlk)
        exact serversOK_alUpdate _ _ _ h (fun hpe => hsrv hpe)
    | resolvedClient cid => exact h
    | rejected m => exact h

lemma serversOK_timeoutStep (st : CMState) (pid : Nat)
    (h : serversOK st.servers) : serversOK (timeoutStep st pid).servers := by
  unfold timeoutStep
  cases hp : st.promises.lookup pid with
  | none => exact h
  | some ps =>
    cases ps with
    | pending a b c d =>
      dsimp only
      split
      · exact h
      · exact serversOK_rejectStartCore st pid _ h
    | resolvedClient cid => exact h
    | rejected m => exact h

lemma serversOK_connectFailStep (st : CMState) (pid : Nat) (msg : String)
    (h : serversOK st.servers) : serversOK (connectFailStep st pid msg).servers := by
  unfold connectFailStep
  cases hp : st.promises.lookup pid with
  | none => exact h
  | some ps =>
    cases ps with
    | pending a b c d => exact serversOK_rejectStartCore st pid msg h
    | resolvedClient cid => exact h
    | rejected m => exact h

lemma serversOK_resolveStep (st : CMState) (pid : Nat)
    (h : serversOK st.servers) : serversOK (resolveStep st pid).servers := by
  unfold resolveStep
  cases hp : st.promises.lookup pid with
  | none => exact h
  | some ps =>
    cases ps with
    | pending srvName cid chid dl =>
      dsimp only
      cases hlk : st.servers.lookup srvName with
      | none => exact h
      | some srv =>
        have hsrv : srvTimerOK srv := h _ (mem_of_lookup _ _ _ hlk)
        exact serversOK_alUpdate _ _ _ h
          (srvTimerOK_reset _ _ (fun hpe => hsrv hpe))
    | resolvedClient cid => exact h
    | rejected m => exact h

lemma serversOK_stopServerStep (st : CMState) (name : String)
    (h : serversOK st.servers) : serversOK (stopServerStep st name).servers := by
  unfold stopServerStep
  cases hlk : st.servers.lookup name with
  | none => exact h
  | some srv =>
    obtain ⟨nm, cfg, cl, tr, stt, la, it, sp⟩ := srv
    cases stt <;> cases cl <;> cases tr <;>
      first
        | exact h
        | exact serversOK_alUpdate _ _ _ h (fun _ => rfl)

lemma serversOK_transportCloseStep (st : CMState) (name : String)
    (h : serversOK st.servers) : serversOK (transportCloseStep st name).servers := by
  unfold transportCloseStep
  cases hlk : st.servers.lookup name with
  | none => exact h
  | some srv =>
    obtain ⟨nm, cfg, cl, tr, stt, la, it, sp⟩ := srv
    cases stt <;> cases tr <;>
      first
        | exact h
        | exact serversOK_alUpdate _ _ _ h (fun _ => rfl)

lemma serversOK_idleFireStep (st : CMState) (name : String)
    (h : serversOK st.servers) : serversOK (idleFireStep st name).servers := by
  unfold idleFireStep
  cases hlk : st.servers.lookup name with
  | none => exact h
  | some srv =>
    dsimp only
    cases hit : srv.idleTimer with
    | none => exact h
    | some d => exact serversOK_stopServerStep st name h

lemma serversOK_callToolStep (st : CMState) (name tool : String)
    (h : serversOK st.servers) : serversOK (callToolStep st name tool).2.servers := by
  have h2 := serversOK_getClientStep st name h
  unfold callToolStep
  dsimp only
  cases hr : (getClientStep st name).1 with
  | thrown m => exact h2
  | awaiting p => exact h2
  | clientReady cid => exact serversOK_callToolActivityStep _ _ h2

lemma serversOK_discoverToolsStep (st : CMState) (name : String)
    (h : serversOK st.servers) : serversOK (discoverToolsStep st name).2.servers := by
  have h2 := serversOK_getClientStep st name h
  unfold discoverToolsStep
  dsimp only
  cases hr : (getClientStep st name).1 with
  | thrown m => exact h2
  | awaiting p => exact h2
  | clientReady cid => exact h2

lemma serversOK_CMStep (st st2 : CMState) (h : CMStep st st2)
    (hok : serversOK st.servers) : serversOK st2.servers := by
  cases h with
  | getClient name => exact serversOK_getClientStep st name hok
  | callTool name tool => exact serversOK_callToolStep st name tool hok
  | discover name => exact serversOK_discoverToolsStep st name hok
  | callActivity name => exact serversOK_callToolActivityStep st name hok
  | resolve pid => exact serversOK_resolveStep st pid hok
  | startTimeout pid => exact serversOK_timeoutStep st pid hok
  | connectFail pid msg => exact serversOK_connectFailStep st pid msg hok
  | stop name => exact serversOK_stopServerStep st name hok
  | unexpectedClose name => exact serversOK_transportCloseStep st name hok
  | idleFire name => exact serversOK_idleFireStep st name hok
  | tick dt => exact hok

/-! ## getClient coalescing lemmas -/

lemma getClientStep_starting (st : CMState) (name : String) (srv : ManagedServer)
    (p : Nat) (hlk : st.servers.lookup name = some srv)
    (hs : srv.status = ServerStatus.starting)
    (hp : srv.startPromise = some p) :
    getClientStep st name = (GetClientOutcome.awaiting p, st) := by
  unfold getClientStep
  rw [hlk]
  obtain ⟨nm, cfg, cl, tr, stt, la, it, sp⟩ := srv
  dsimp only at hs hp
  subst hs
  subst hp
  cases cl <;> rfl

lemma getClientN_starting (n : Nat) (st : CMState) (name : String)
    (srv : ManagedServer) (p : Nat) (hlk : st.servers.lookup name = some srv)
    (hs : srv.status = ServerStatus.starting)
    (hp : srv.startPromise = some p) :
    getClientN st name n = (List.replicate n (GetClientOutcome.awaiting p), st) := by
  induction n with
  | zero => rfl
  | succ k ih =>
    have h1 := getClientStep_starting st name srv p hlk hs hp
    simp only [getClientN, h1, ih, List.replicate_succ]

lemma getClientStep_stopped (st : CMState) (name : String) (srv : ManagedServer)
    (hlk : st.servers.lookup name = some srv)
    (hs : srv.status = ServerStatus.stopped) :
    getClientStep st name =
      (GetClientOutcome.awaiting (startServerSync st name srv).1,
       (startServerSync st name srv).2) := by
  unfold getClientStep
  rw [hlk]
  obtain ⟨nm, cfg, cl, tr, stt, la, it, sp⟩ := srv
  dsimp only at hs
  subst hs
  cases cl <;> cases sp <;> rfl

/-! ## Claim theorems: schema cache, prefixing, persistence, proxy dispatch -/

/-- C3 counterexample: with prefixing disabled and servers A and B both
declaring a tool named list, the routing table does keep the first server A,
but getAllTools (the host-visible tools/list) contains TWO entries named
list — not exactly one — because the source performs no deduplication. -/
theorem c3_counterexample :
    getServerForTool (some c3CacheAB) "list" = some "A" ∧
    ((getAllTools (some c3CacheAB) false).filter (fun x => x.name == "list")).length = 2 ∧
    ¬ ((getAllTools (some c3CacheAB) false).filter
        (fun x => x.name == "list")).length = 1 := by
  refine ⟨rfl, rfl, by decide⟩

/-- C3 (amended): with prefixing disabled, when several servers declare the
same tool name, the routing table keeps the first server in deterministic
iteration order, a collision warning naming the kept server and each later
declaring server is emitted, and tools/call for that name reaches the first
server; however the host-visible getAllTools with prefix disabled contains one
entry per declaring server, so the colliding name appears once per
declaration rather than exactly once. -/
theorem c3_collision_policy (cache : Option FullCache) (t s1 : String)
    (rest : List String) (upstream : UpstreamCall) (r : ToolCallResult)
    (h : declServersOf cache t = s1 :: rest) :
    getServerForTool cache t = some s1 ∧
    (∀ s ∈ rest, (⟨t, s1, s⟩ : CollisionWarning) ∈ (rebuildRouting cache).2) ∧
    ((getAllTools cache false).filter (fun x => x.name == t)).length = rest.length + 1 ∧
    (upstream s1 t = Except.ok r →
      callDirectTool cache false upstream t = Except.ok r) := by
  obtain ⟨hroute, hwarn⟩ := rebuildRouting_collisions cache t s1 rest h
  refine ⟨hroute, hwarn, ?_, ?_⟩
  · rw [getAllTools_false_count, h]
    rfl
  · intro hup
    simp only [callDirectTool, hroute]
    rw [show getOriginalToolName t false = t from rfl, hup]

/-- C3 witness: the amended collision policy evaluated on the concrete
two-server fixture where both declare a tool named list. -/
theorem c3_witness :
    getServerForTool (some c3CacheAB) "list" = some "A" ∧
    (∀ s ∈ ["B"], (⟨"list", "A", s⟩ : CollisionWarning) ∈ (rebuildRouting (some c3CacheAB)).2) ∧
    ((getAllTools (some c3CacheAB) false).filter (fun x => x.name == "list")).length = 1 + 1 ∧
    (c7Upstream "A" "list" = Except.ok ⟨[], none⟩ →
      callDirectTool (some c3CacheAB) false c7Upstream "list" = Except.ok ⟨[], none⟩) :=
  c3_collision_policy (some c3CacheAB) "list" "A" ["B"] c7Upstream ⟨[], none⟩ rfl

/-- C4 counterexample: the cached server alpha declares the tool ping, yet
getServerForTool applied to the prefixed exposed name alpha__ping returns
none (the routing table is keyed by original tool names), and for the server
named a__b with tool x, getOriginalToolName strips only through the FIRST
double underscore, returning b__x instead of x.  Both halves of the claimed
round trip fail. -/
theorem c4_counterexample :
    (declServersOf (some c4Cache) "ping" = ["alpha"] ∧
     getServerForTool (some c4Cache) ("alpha" ++ "__" ++ "ping") = none ∧
     ¬ getServerForTool (some c4Cache) ("alpha" ++ "__" ++ "ping") = some "alpha") ∧
    (declServersOf (some c4Cache) "x" = ["a__b"] ∧
     getOriginalToolName ("a__b" ++ "__" ++ "x") true = "b__x" ∧
     ¬ getOriginalToolName ("a__b" ++ "__" ++ "x") true = "x") := by
  refine ⟨⟨rfl, rfl, by decide⟩, ⟨rfl, rfl, by decide⟩⟩

/-- C4 (amended): getOriginalToolName with prefixing strips the exposed name
through its first double underscore, so it round-trips exactly when the
server name neither contains a double underscore nor ends in an underscore;
getServerForTool is keyed by original tool names, mapping a declared tool
name to its first declaring server, while a prefixed exposed name resolves to
none unless it happens to be a declared tool name itself. -/
theorem c4_prefix_semantics :
    (∀ s t : String, dunderSafeServerName s = true →
      getOriginalToolName (s ++ "__" ++ t) true = t) ∧
    (∀ (cache : Option FullCache) (t s1 : String) (rest : List String),
      declServersOf cache t = s1 :: rest →
      getServerForTool cache t = some s1) ∧
    (∀ (cache : Option FullCache) (s t : String),
      declServersOf cache (s ++ "__" ++ t) = [] →
      getServerForTool cache (s ++ "__" ++ t) = none) := by
  refine ⟨getOriginalToolName_roundtrip, ?_, ?_⟩
  · intro cache t s1 rest h
    rw [getServerForTool_eq_head, h]
    rfl
  · intro cache s t h
    rw [getServerForTool_eq_head, h]
    rfl

/-- C4 witness: the amended prefix semantics evaluated on the concrete cache
with servers alpha and a__b. -/
theorem c4_witness :
    getOriginalToolName ("alpha" ++ "__" ++ "ping") true = "ping" ∧
    getServerForTool (some c4Cache) "ping" = some "alpha" ∧
    getServerForTool (some c4Cache) ("zzz" ++ "__" ++ "q") = none :=
  ⟨c4_prefix_semantics.1 "alpha" "ping" (by decide),
   c4_prefix_semantics.2.1 (some c4Cache) "ping" "alpha" [] rfl,
   c4_prefix_semantics.2.2 (some c4Cache) "zzz" "q" rfl⟩

/-- C5 counterexample: the trace of operations performed by save() for a
concrete cache contains no write-temp-then-rename pattern at all, and a crash
in the middle of its single direct write can leave the cache file holding a
strict prefix of the new serialization (here NEW) that is neither the
previous full content (OLDCACHE) nor the complete new one (NEWCACHE). -/
theorem c5_counterexample :
    specAtomicTempRenameSave c5Ops (cacheFilePath "cachedir") = false ∧
    CrashObs (cacheFilePath "cachedir") [(cacheFilePath "cachedir", "OLDCACHE")]
      c5Ops (some "NEW") ∧
    ¬ (some "NEW" = some "OLDCACHE" ∨ some "NEW" = some "NEWCACHE") := by
  refine ⟨rfl, ?_, by decide⟩
  exact CrashObs.next _ (FsOp.mkdirRecursive "cachedir") _ _
    (CrashObs.midWrite _ _ "NEWCACHE" "NEW" (by decide))

/-- C5 (amended): save() is a no-op without an in-memory cache and otherwise
persists the cache NON-atomically: it performs exactly a recursive mkdir of
the cache directory followed by one direct write of the serialized cache to
the cache file, with no sibling temporary file and no rename. -/
theorem c5_save_direct_write (serialize : FullCache → String) (cacheDir : String)
    (c : FullCache) :
    saveOps serialize cacheDir (some c) =
      [FsOp.mkdirRecursive cacheDir,
       FsOp.writeFile (cacheFilePath cacheDir) (serialize c)] ∧
    saveOps serialize cacheDir none = [] ∧
    specAtomicTempRenameSave (saveOps serialize cacheDir (some c))
      (cacheFilePath cacheDir) = false := by
  refine ⟨rfl, rfl, rfl⟩

/-- C7: a tools/call for a name absent from the routing table, and any error
thrown while forwarding, produce a normal tool-call result with isError true
and a human-readable message; both proxy handler generations always return a
result and never propagate a protocol-level fault. -/
theorem c7_soft_error_results (cache : Option FullCache) (prefixTools : Bool)
    (upstream : UpstreamCall) (toolName : String) :
    (∃ r, callDirectTool cache prefixTools upstream toolName = Except.ok r) ∧
    (getServerForTool cache toolName = none →
      callDirectTool cache prefixTools upstream toolName =
        Except.ok { content := [⟨"text", "Unknown tool: " ++ toolName⟩],
                    isError := some true }) ∧
    (∀ s msg, getServerForTool cache toolName = some s →
      upstream s (getOriginalToolName toolName prefixTools) = Except.error msg →
      callDirectTool cache prefixTools upstream toolName =
        Except.ok { content := [⟨"text", "Error: " ++ msg⟩], isError := some true }) ∧
    (∃ r2, proxyCallToolHandler cache prefixTools upstream toolName = Except.ok r2) ∧
    (getServerForTool cache toolName = none →
      proxyCallToolHandler cache prefixTools upstream toolName =
        Except.ok { content := [⟨"text", "Error: Unknown tool \"" ++ toolName ++ "\""⟩],
                    isError := some true }) := by
  have hlookupName : (if prefixTools then toolName else toolName) = toolName := by
    cases prefixTools <;> rfl
  refine ⟨?_, ?_, ?_, ?_, ?_⟩
  · cases hl : getServerForTool cache toolName with
    | none =>
      exact ⟨{ content := [⟨"text", "Unknown tool: " ++ toolName⟩], isError := some true },
        by simp [callDirectTool, hl]⟩
    | some s =>
      cases hup : upstream s (getOriginalToolName toolName prefixTools) with
      | ok r => exact ⟨r, by simp [callDirectTool, hl, hup]⟩
      | error msg =>
        exact ⟨{ content := [⟨"text", "Error: " ++ msg⟩], isError := some true },
          by simp [callDirectTool, hl, hup]⟩
  · intro hl
    simp [callDirectTool, hl]
  · intro s msg hl hup
    simp [callDirectTool, hl, hup]
  · cases hl : getServerForTool cache toolName with
    | none =>
      exact ⟨{ content := [⟨"text", "Error: Unknown tool \"" ++ toolName ++ "\""⟩],
               isError := some true },
        by simp [proxyCallToolHandler, hlookupName, hl]⟩
    | some s =>
      cases hup : upstream s (getOriginalToolName toolName prefixTools) with
      | ok r => exact ⟨r, by simp [proxyCallToolHandler, hlookupName, hl, hup]⟩
      | error msg =>
        exact ⟨{ content := [⟨"text", "Error calling " ++ toolName ++ ": " ++ msg⟩],
                 isError := some true },
          by simp [proxyCallToolHandler, hlookupName, hl, hup]⟩
  · intro hl
    simp [proxyCallToolHandler, hlookupName, hl]

/-- C7 witness: concrete unknown-tool and thrown-forwarding cases, both
yielding normal isError results. -/
theorem c7_witness :
    callDirectTool none false c7Upstream "nope" =
      Except.ok { content := [⟨"text", "Unknown tool: nope"⟩], isError := some true } ∧
    callDirectTool (some c7Cache) false c7Upstream "tool1" =
      Except.ok { content := [⟨"text", "Error: boom"⟩], isError := some true } :=
  ⟨(c7_soft_error_results none false c7Upstream "nope").2.1 rfl,
   (c7_soft_error_results (some c7Cache) false c7Upstream "tool1").2.2.1 "srv" "boom"
     rfl rfl⟩

/-- C8 counterexample: the two meta-tools returned in tool-search mode are
named search_tools and use_tool, not discover and execute as the claim
states. -/
theorem c8_counterexample :
    (getMetaTools c8Engine 2).map (fun t => t.name) = ["search_tools", "use_tool"] ∧
    ¬ (getMetaTools c8Engine 2).map (fun t => t.name) = ["discover", "execute"] :=
  ⟨rfl, by decide⟩

/-- C8 (amended): in tool-search mode with an initialized engine, every
tools/list response is exactly the two meta-tool descriptors, named
search_tools and use_tool, and contains no individual upstream tool. -/
theorem c8_meta_tools_only (engine : ToolSearchEngineModel) (serverCount : Nat)
    (cache : Option FullCache) (prefixTools : Bool) :
    listToolsHandler Mode.toolSearch (some engine) serverCount cache prefixTools =
      getMetaTools engine serverCount ∧
    (listToolsHandler Mode.toolSearch (some engine) serverCount cache
      prefixTools).length = 2 ∧
    (listToolsHandler Mode.toolSearch (some engine) serverCount cache
      prefixTools).map (fun t => t.name) = ["search_tools", "use_tool"] :=
  ⟨rfl, rfl, rfl⟩

/-- C9 counterexample: a max_results of minus five is passed through as the
effective result count, which is not within the claimed clamp range one to
thirty. -/
theorem c9_counterexample :
    effectiveMaxResults (some (-5)) = -5 ∧
    ¬ (1 ≤ effectiveMaxResults (some (-5)) ∧ effectiveMaxResults (some (-5)) ≤ 30) := by
  refine ⟨by decide, by decide⟩

/-- C9 (amended): the effective max_results defaults to 10 when absent or
zero and is capped above at 30, but is not clamped from below (values below
one pass through); an empty or whitespace-only query yields the guidance
message with no isError flag set. -/
theorem c9_search_arguments :
    (∀ m : Option Int, effectiveMaxResults m ≤ 30) ∧
    effectiveMaxResults none = 10 ∧
    (∀ v : Int, ¬ v = 0 → effectiveMaxResults (some v) = min v 30) ∧
    (∀ (engine : ToolSearchEngineModel) (render : String → List SearchResult → String)
       (query : Option String) (mr : Option Int),
      jsTrim (query.getD "") = "" →
      handleSearchTools engine render query mr =
        { content := [⟨"text", "Provide a search query."⟩], isError := none }) := by
  refine ⟨?_, rfl, ?_, ?_⟩
  · intro m
    exact min_le_right _ _
  · intro v hv
    show min (if v = 0 then (10 : Int) else v) 30 = min v 30
    rw [if_neg hv]
  · intro engine render query mr hq
    simp [handleSearchTools, hq]

/-- C9 witness: the amended behaviour at concrete inputs: fifty caps to
thirty, and a whitespace-only query gets the guidance message. -/
theorem c9_witness :
    effectiveMaxResults (some 50) = min 50 30 ∧
    handleSearchTools c8Engine c9Render (some "   ") (some 4) =
      { content := [⟨"text", "Provide a search query."⟩], isError := none } :=
  ⟨c9_search_arguments.2.2.1 50 (by decide),
   c9_search_arguments.2.2.2 c8Engine c9Render (some "   ") (some 4) (by decide)⟩

/-! ## Claim theorems: child manager -/

/-- C1: getClient on a server in Starting state returns the very same
in-flight start promise without touching the state; and n concurrent
getClient calls on a server initially Stopped spawn exactly one child
process, give every caller the same promise, and that promise resolves to a
single shared client. -/
theorem c1_spawn_coalescing :
    (∀ (st : CMState) (name : String) (srv : ManagedServer) (p : Nat),
      st.servers.lookup name = some srv →
      srv.status = ServerStatus.starting →
      srv.startPromise = some p →
      getClientStep st name = (GetClientOutcome.awaiting p, st)) ∧
    (∀ (st : CMState) (name : String) (srv : ManagedServer) (n : Nat),
      st.servers.lookup name = some srv →
      srv.status = ServerStatus.stopped →
      promiseIdsBounded st →
      ∃ p clientId childId deadline,
        (getClientN st name (n + 1)).1 =
          List.replicate (n + 1) (GetClientOutcome.awaiting p) ∧
        (getClientN st name (n + 1)).2.children.length = st.children.length + 1 ∧
        (getClientN st name (n + 1)).2.promises.lookup p =
          some (PromiseState.pending name clientId childId deadline) ∧
        (resolveStep (getClientN st name (n + 1)).2 p).promises.lookup p =
          some (PromiseState.resolvedClient clientId)) := by
  constructor
  · exact getClientStep_starting
  · intro st name srv n hlk hs hb
    refine ⟨st.nextId + 2, st.nextId + 1, st.nextId, st.now + st.startupTimeout, ?_⟩
    have h1 : getClientStep st name =
        (GetClientOutcome.awaiting (st.nextId + 2), (startServerSync st name srv).2) :=
      getClientStep_stopped st name srv hlk hs
    have hlk2 : (startServerSync st name srv).2.servers.lookup name =
        some { srv with status := ServerStatus.starting,
                        startPromise := some (st.nextId + 2) } :=
      lookup_alUpdate_self _ _ _ _ hlk
    have hN : getClientN (startServerSync st name srv).2 name n =
        (List.replicate n (GetClientOutcome.awaiting (st.nextId + 2)),
         (startServerSync st name srv).2) :=
      getClientN_starting n _ name _ (st.nextId + 2) hlk2 rfl rfl
    have hmain : getClientN st name (n + 1) =
        (GetClientOutcome.awaiting (st.nextId + 2) ::
           List.replicate n (GetClientOutcome.awaiting (st.nextId + 2)),
         (startServerSync st name srv).2) := by
      simp only [getClientN, h1, hN]
    have hpn : st.promises.lookup (st.nextId + 2) = none :=
      lookup_none_of_ge st.promises st.nextId _ hb (by omega)
    have hprom : (startServerSync st name srv).2.promises.lookup (st.nextId + 2) =
        some (PromiseState.pending name (st.nextId + 1) st.nextId
          (st.now + st.startupTimeout)) := by
      show (st.promises ++
        [(st.nextId + 2,
          PromiseState.pending name (st.nextId + 1) st.nextId
            (st.now + st.startupTimeout))]).lookup (st.nextId + 2) = _
      rw [List.lookup_append, hpn, Option.none_or]
      simp [List.lookup]
    have hres : (resolveStep (startServerSync st name srv).2
        (st.nextId + 2)).promises.lookup (st.nextId + 2) =
        some (PromiseState.resolvedClient (st.nextId + 1)) := by
      unfold resolveStep
      rw [hprom]
      dsimp only
      rw [hlk2]
      dsimp only
      exact lookup_alUpdate_self _ _ _ _ hprom
    refine ⟨?_, ?_, ?_, ?_⟩
    · rw [hmain]
      simp [List.replicate_succ]
    · rw [hmain]
      show ((st.children ++ [_]).length) = st.children.length + 1
      simp
    · rw [hmain]
      exact hprom
    · rw [hmain]
      exact hres

/-- C1 witness: three concurrent getClient calls on the stopped fixture
server spawn one child and share one promise resolving to one client. -/
theorem c1_witness :
    ∃ p clientId childId deadline,
      (getClientN c1Init "a" (2 + 1)).1 =
        List.replicate (2 + 1) (GetClientOutcome.awaiting p) ∧
      (getClientN c1Init "a" (2 + 1)).2.children.length = c1Init.children.length + 1 ∧
      (getClientN c1Init "a" (2 + 1)).2.promises.lookup p =
        some (PromiseState.pending "a" clientId childId deadline) ∧
      (resolveStep (getClientN c1Init "a" (2 + 1)).2 p).promises.lookup p =
        some (PromiseState.resolvedClient clientId) :=
  c1_spawn_coalescing.2 c1Init "a" (initialServer "a" c1Config) 2 rfl rfl
    (fun q hq => absurd hq (List.not_mem_nil q))

/-- C2: with a child that never completes the handshake (sleep 60,
startupTimeout 500 ms), the pending callTool is rejected with the
startup-timeout message exactly when the 500 ms timer fires, and the server
state becomes error; but the spawned child process is still alive afterwards:
the source never closes the transport or kills the child on timeout, in
contradiction with the claim (and the specification scenario that no child
lingers). -/
theorem c2_startup_timeout_leaves_child_alive :
    (callToolStep c2Init "sleepy" "ping").1 = CallOutcome.awaitingStart 2 ∧
    (timeoutStep (tickStep (callToolStep c2Init "sleepy" "ping").2 500) 2).promises.lookup 2 =
      some (PromiseState.rejected "Startup timeout (500ms)") ∧
    ((timeoutStep (tickStep (callToolStep c2Init "sleepy" "ping").2 500) 2).servers.lookup
      "sleepy").map (fun s => s.status) = some ServerStatus.error ∧
    (timeoutStep (tickStep (callToolStep c2Init "sleepy" "ping").2 500) 2).now = 0 + 500 ∧
    (timeoutStep (tickStep (callToolStep c2Init "sleepy" "ping").2 500) 2).children.map
      (fun c => (c.server, c.alive)) = [("sleepy", true)] := by
  refine ⟨rfl, by decide, rfl, rfl, rfl⟩

/-- C6: a persistent server never has an armed idle timer in any reachable
child-manager state (hence persistent together with running implies the timer
is null), and for non-persistent servers the armed duration is the
per-server idleTimeout when set, otherwise the global default, in
milliseconds. -/
theorem c6_persistent_no_idle_timer :
    (∀ (configs : List (String × ServerConfig)) (dIdle sTimeout : Nat)
        (baseEnv : List (String × String)) (st : CMState),
      CMReachable (mkChildManager configs dIdle sTimeout baseEnv) st →
      ∀ e ∈ st.servers, e.2.config.persistent = true → e.2.idleTimer = none) ∧
    (∀ (d : Nat) (srv : ManagedServer), srv.config.persistent = false →
      (resetIdleTimer d srv).idleTimer =
        some ((srv.config.idleTimeout.getD d) * 1000)) := by
  constructor
  · intro configs dIdle sTimeout baseEnv st h
    have hOK : serversOK st.servers := by
      unfold CMReachable at h
      induction h with
      | refl =>
        intro e he
        unfold mkChildManager at he
        dsimp only at he
        rcases List.mem_map.mp he with ⟨p, hp, he2⟩
        rw [← he2]
        exact fun _ => rfl
      | tail hab hbc ih => exact serversOK_CMStep _ _ hbc ih
    exact hOK
  · intro d srv hp
    unfold resetIdleTimer
    rw [if_neg (by simp [hp])]

/-- C6 witness: after one getClient step on the persistent fixture server,
every persistent server still has no timer; and the non-persistent fixture
server arms the default duration. -/
theorem c6_witness :
    (∀ e ∈ (getClientStep c6Init "p").2.servers,
      e.2.config.persistent = true → e.2.idleTimer = none) ∧
    (resetIdleTimer 300 (initialServer "a" c1Config)).idleTimer =
      some ((c1Config.idleTimeout.getD 300) * 1000) :=
  ⟨c6_persistent_no_idle_timer.1 [("p", c6Config), ("a", c1Config)] 300 30000 []
      (getClientStep c6Init "p").2
      (Relation.ReflTransGen.single (CMStep.getClient c6Init "p")),
   c6_persistent_no_idle_timer.2 300 (initialServer "a" c1Config) rfl⟩

/-- C10: getClient on a server name absent from the configured map throws the
Unknown server error and leaves the whole state unchanged (no spawn, no
server mutated); callTool and discoverTools, which await getClient first,
fail the same way. -/
theorem c10_unknown_server (st : CMState) (name tool : String)
    (h : st.servers.lookup name = none) :
    getClientStep st name =
      (GetClientOutcome.thrown ("Unknown server: " ++ name), st) ∧
    callToolStep st name tool =
      (CallOutcome.thrown ("Unknown server: " ++ name), st) ∧
    discoverToolsStep st name =
      (CallOutcome.thrown ("Unknown server: " ++ name), st) := by
  have hg : getClientStep st name =
      (GetClientOutcome.thrown ("Unknown server: " ++ name), st) := by
    unfold getClientStep
    rw [h]
  refine ⟨hg, ?_, ?_⟩
  · unfold callToolStep
    rw [hg]
  · unfold discoverToolsStep
    rw [hg]

/-- C10 witness: the unknown-server behaviour at the concrete fixture. -/
theorem c10_witness :
    getClientStep c1Init "zzz" =
      (GetClientOutcome.thrown ("Unknown server: " ++ "zzz"), c1Init) ∧
    callToolStep c1Init "zzz" "t" =
      (CallOutcome.thrown ("Unknown server: " ++ "zzz"), c1Init) ∧
    discoverToolsStep c1Init "zzz" =
      (CallOutcome.thrown ("Unknown server: " ++ "zzz"), c1Init) :=
  c10_unknown_server c1Init "zzz" "t" rfl

end McpHub
